import Mathlib

/-!
Verification of the OCR document-processing core (src/ocr/core.py).

The Python functions are shallowly embedded as Lean definitions:

* strings keep the Python semantics (lower, strip, substring membership)
  modelled over the character list of a `String`;
* machine integers are `Int` (Python ints are unbounded, and all positional
  arithmetic in the source is on ints); the Python floor division `//` is
  `Int.fdiv`;
* Python dict values are association lists whose assignment replaces an
  existing key in place (insertion order preserved) and appends otherwise;
* the Python call `sorted(..., key=lambda x: ...y)` is a stable sort by the
  vertical center; `List.insertionSort` by the le-by-key relation is stable
  with the same tie behaviour, hence produces the identical list;
* a Python function that may raise or return `None` returns an `Option`.
-/

/-- Python `str.lower` (ASCII case folding, which covers every pattern in
the field registry). -/
def pyLower (s : String) : String := ⟨s.data.map Char.toLower⟩

/-- Python `str.strip`: drop whitespace from both ends. -/
def pyStrip (s : String) : String :=
  ⟨((s.data.dropWhile Char.isWhitespace).reverse.dropWhile Char.isWhitespace).reverse⟩

/-- Test that the first list is an initial run of the second. -/
def chStarts : List Char → List Char → Bool
  | [], _ => true
  | _ :: _, [] => false
  | a :: pt, b :: ht => a == b && chStarts pt ht

/-- Test that the first list occurs contiguously somewhere in the second. -/
def chSub (p : List Char) : List Char → Bool
  | [] => p.isEmpty
  | b :: t => chStarts p (b :: t) || chSub p t

/-- Python substring membership `pat in hay` on strings. -/
def pyContains (hay pat : String) : Bool := chSub pat.data hay.data

/-- Shape of the position dict attached to every recognized word
(src/ocr/core.py lines 329-336). -/
structure Position where
  x : Int
  y : Int
  width : Int
  height : Int
  left : Int
  top : Int
deriving DecidableEq

/-- One recognized word with its confidence and position
(the dicts appended at src/ocr/core.py lines 326-337). -/
structure Element where
  text : String
  confidence : Int
  position : Position
deriving DecidableEq

/-- Same-row test of `find_field_value` (lines 399-401): vertical centers
within 20 pixels and the candidate horizontal center strictly to the right
of the label. -/
def sameRowB (label_position : Position) (e : Element) : Bool :=
  decide ((e.position.y - label_position.y).natAbs < 20) &&
  decide (e.position.x > label_position.x)

/-- Below test of `find_field_value` (lines 408-410): strictly lower vertical
center, vertical gap under `max_distance`, horizontal offset under
`max_distance`. -/
def belowB (label_position : Position) (max_distance : Int) (e : Element) : Bool :=
  decide (e.position.y > label_position.y) &&
  decide (e.position.y - label_position.y < max_distance) &&
  decide (((e.position.x - label_position.x).natAbs : Int) < max_distance)

/-- Embedding of `find_field_value` (src/ocr/core.py lines 387-413): scan the
elements from `current_index` on for the first same-row element; only if that
search fails, scan again for the first below-element; otherwise return
nothing. -/
def find_field_value (elements : List Element) (current_index : Nat)
    (label_position : Position) (max_distance : Int) : Option Element :=
  let remaining := elements.drop current_index
  match remaining.find? (fun e => sameRowB label_position e) with
  | some e => some e
  | none => remaining.find? (fun e => belowB label_position max_distance e)

/-- Static field registry of `identify_fields` (lines 352-363), in source
order. -/
def field_patterns : List (String × List String) :=
  [("nome", ["nome", "name"]),
   ("cpf", ["cpf", "cadastro de pessoa"]),
   ("rg", ["rg", "registro geral", "identidade"]),
   ("data_nascimento", ["nascimento", "data de nascimento", "birth", "nasc"]),
   ("filiacao", ["filiacao", "filho", "pai", "mae", "father", "mother"]),
   ("endereco", ["endereco", "address", "residencia"]),
   ("validade", ["validade", "valid", "expira"]),
   ("numero_cartao", ["cartão", "card number", "número do cartão"]),
   ("validade_cartao", ["valid thru", "validade"]),
   ("titular", ["titular", "holder"])]

/-- Inner label scan of `identify_fields` (lines 369-373, with the break at
line 383): lowercase and strip the element text, then return the first
registry field one of whose patterns is a substring of it. -/
def matchedField (e : Element) : Option String :=
  let text := pyStrip (pyLower e.text)
  (field_patterns.find? (fun fp => fp.2.any (fun p => pyContains text p))).map (·.1)

/-- Per-field record stored by `identify_fields` (lines 377-382). -/
structure FieldEntry where
  label : String
  value : String
  confidence : Int
  position : Position
deriving DecidableEq

/-- Python dict assignment: replace in place when the key exists, append
otherwise. -/
def dictSet {β : Type} : List (String × β) → String → β → List (String × β)
  | [], k, v => [(k, v)]
  | (k', v') :: rest, k, v =>
    if k' = k then (k, v) :: rest else (k', v') :: dictSet rest k v

/-- Python dict read with a default of nothing. -/
def dictGet? {β : Type} : List (String × β) → String → Option β
  | [], _ => none
  | (k', v) :: rest, k => if k' = k then some v else dictGet? rest k

/-- Sort key of `identify_fields` (line 366): vertical center, ascending. -/
def leY (a b : Element) : Prop := a.position.y ≤ b.position.y

instance : DecidableRel leY := fun a b => inferInstanceAs (Decidable (a.position.y ≤ b.position.y))

/-- Embedding of the sort at line 366. The Python sort is stable;
`insertionSort` by `leY` is the stable sort by the same key, hence produces
the identical list. -/
def sortedByY (elements : List Element) : List Element :=
  List.insertionSort leY elements

/-- Entry stored in the fields dict for a matched label with its found value
(lines 377-382). -/
def mkEntry (e v : Element) : FieldEntry :=
  { label := e.text, value := v.text, confidence := v.confidence, position := v.position }

/-- Main loop of `identify_fields` (lines 368-383): walk the sorted elements
with their index; for the first registry field matching the element text,
look for a value and, when one is found, assign it in the fields dict,
overwriting any previous entry for that field. The source calls
`find_field_value` without `max_distance`, so the default 100 is passed. -/
def identifyAux (sorted : List Element) :
    List Element → Nat → List (String × FieldEntry) → List (String × FieldEntry)
  | [], _, fields => fields
  | e :: rest, i, fields =>
    let fields' :=
      match matchedField e with
      | none => fields
      | some fname =>
        match find_field_value sorted i e.position 100 with
        | none => fields
        | some v => dictSet fields fname (mkEntry e v)
    identifyAux sorted rest (i + 1) fields'

/-- Embedding of `identify_fields` (src/ocr/core.py lines 347-385). -/
def identify_fields (elements : List Element) : List (String × FieldEntry) :=
  let sorted := sortedByY elements
  identifyAux sorted sorted 0 []

/-- One raw token as reported by the OCR engine to
`extract_text_with_position`: one index of the parallel arrays text, conf,
left, top, width, height of `image_to_data`. -/
structure RawToken where
  text : String
  conf : Int
  left : Int
  top : Int
  width : Int
  height : Int
deriving DecidableEq

/-- Element-building loop of `extract_text_with_position` (src/ocr/core.py
lines 314-337): skip a token iff its confidence equals -1 or its stripped
text is empty; otherwise build the element, with the center computed by the
Python floor division on ints. -/
def buildElements (tokens : List RawToken) : List Element :=
  tokens.filterMap (fun t =>
    if t.conf = -1 ∨ pyStrip t.text = "" then none
    else some
      { text := t.text,
        confidence := t.conf,
        position :=
          { x := t.left + Int.fdiv t.width 2,
            y := t.top + Int.fdiv t.height 2,
            width := t.width,
            height := t.height,
            left := t.left,
            top := t.top } })

/-- Embedding of `extract_text_with_position` (lines 298-345) after the
engine call: build the elements, identify fields, and keep the map from
field name to value text. -/
def extract_text_with_position (tokens : List RawToken) : List (String × String) :=
  (identify_fields (buildElements tokens)).map (fun kv => (kv.1, kv.2.value))

/-- Toggles and parameters of `preprocess_image` (lines 18-19). -/
structure PreprocessConfig where
  threshold : Nat
  use_grayscale : Bool
  use_binarization : Bool
  use_median_blur : Bool
  blur_kernel_size : Nat
  use_denoising : Bool
deriving DecidableEq

/-- Embedding of `preprocess_image` (src/ocr/core.py lines 18-55). The four
image stages (PIL grayscale conversion, threshold binarization, cv2 median
blur, cv2 denoising) are external library transforms, passed here as
functions on an abstract image type; the embedding captures the staging
logic: each stage is applied exactly when its toggle is set, in the fixed
source order. -/
def preprocess_image {Img : Type} (grayscale : Img → Img) (binarize : Nat → Img → Img)
    (medianBlur : Nat → Img → Img) (denoise : Img → Img)
    (cfg : PreprocessConfig) (image : Img) : Img :=
  let i1 := if cfg.use_grayscale then grayscale image else image
  let i2 := if cfg.use_binarization then binarize cfg.threshold i1 else i1
  let i3 := if cfg.use_median_blur then medianBlur cfg.blur_kernel_size i2 else i2
  if cfg.use_denoising then denoise i3 else i3

/-- Outcome of processing one PDF page inside the loop of
`extract_text_from_pdf_by_image` (lines 147-161): either some step
(rasterization, preprocessing or OCR) raised an exception, or OCR returned a
page text, possibly empty. -/
inductive PageOut where
  | exn : PageOut
  | txt : String → PageOut
deriving DecidableEq

/-- Page loop of `extract_text_from_pdf_by_image` (lines 147-161): pages are
processed in order; an exception on any page propagates out of the loop
(the loop body has no handler of its own); a non-empty page text is stripped
and collected, an empty one is skipped with a warning. -/
def collectTexts : List PageOut → Option (List String)
  | [] => some []
  | PageOut.exn :: _ => none
  | PageOut.txt s :: rest =>
    (collectTexts rest).map (fun ts => if s = "" then ts else pyStrip s :: ts)

/-- Embedding of `extract_text_from_pdf_by_image` (src/ocr/core.py lines
135-171): a propagated page exception is caught by the function-level
handler, which returns nothing; with no exception, return nothing when no
page contributed text, else the collected texts joined by newlines. -/
def extract_text_from_pdf_by_image (pages : List PageOut) : Option String :=
  match collectTexts pages with
  | none => none
  | some ts => if ts.isEmpty then none else some (String.intercalate "\n" ts)

/-- Non-empty stripped page texts, in page order: what the loop appends to
the accumulator when nothing raises. -/
def pageTexts (pages : List PageOut) : List String :=
  pages.filterMap (fun p =>
    match p with
    | PageOut.exn => none
    | PageOut.txt s => if s = "" then none else some (pyStrip s))

/-- A value of one of the per-page result dicts built by
`_process_pdf_with_position` (lines 284-287): the page number or the map
from field name to value returned by `extract_text_with_position`. -/
inductive PyVal where
  | num : Nat → PyVal
  | dict : List (String × String) → PyVal
deriving DecidableEq

/-- Embedding of `_process_pdf_with_position` (src/ocr/core.py lines
266-296), abstracted over the per-page outcomes of
`extract_text_with_position` (with `none` standing for a page whose call
returned nothing). A page is appended only when its result is truthy
(present and a non-empty dict), as a dict with the keys page and elements. -/
def process_pdf_with_position (pageResults : List (Option (List (String × String)))) :
    List (List (String × PyVal)) :=
  pageResults.enum.filterMap (fun pr =>
    match pr.2 with
    | none => none
    | some m =>
      if m.isEmpty then none
      else some [("page", PyVal.num (pr.1 + 1)), ("elements", PyVal.dict m)])

/-- Python dict update: assign every pair of the second dict into the first,
in order. -/
def dictUpdate (acc : List (String × String)) (d : List (String × String)) :
    List (String × String) :=
  d.foldl (fun a kv => dictSet a kv.1 kv.2) acc

/-- One iteration of the merge loop of `process_document_with_position`
(line 255): read the key fields of the page dict, defaulting to the empty
dict, and update the accumulator with it. -/
def combineStep (acc : List (String × String)) (page : List (String × PyVal)) :
    List (String × String) :=
  let f := match dictGet? page "fields" with
           | some (PyVal.dict d) => d
           | _ => []
  dictUpdate acc f

/-- Merge of the per-page dicts in the PDF branch of
`process_document_with_position` (lines 253-255). -/
def combine_fields (pages : List (List (String × PyVal))) : List (String × String) :=
  pages.foldl combineStep []

/-- Embedding of `process_document_with_position` on a .pdf path
(src/ocr/core.py lines 249-264): when the page list is truthy, return the
combined fields; otherwise fall through and return nothing. -/
def process_document_with_position_pdf
    (pageResults : List (Option (List (String × String)))) :
    Option (List (String × String)) :=
  let pages := process_pdf_with_position pageResults
  if pages.isEmpty then none else some (combine_fields pages)

/-- Successful resolutions that the `identify_fields` loop performs for one
field name, in loop order: one entry for each element whose first matching
registry field is the given one and for which `find_field_value` finds a
value. Mirrors the recursion of `identifyAux`. -/
def resAux (f : String) (sorted : List Element) :
    List Element → Nat → List FieldEntry
  | [], _ => []
  | e :: rest, i =>
    (match matchedField e, find_field_value sorted i e.position 100 with
     | some g, some v => if g = f then [mkEntry e v] else []
     | _, _ => []) ++ resAux f sorted rest (i + 1)

/-- All resolutions for one field name over the elements of a page, in
sorted order. -/
def resolutionsFor (f : String) (elements : List Element) : List FieldEntry :=
  resAux f (sortedByY elements) (sortedByY elements) 0

/-- Sample element builder used by the concrete pages below: a word with a
10 by 10 box whose center is at the given coordinates. -/
def sampleEl (t : String) (x y : Int) : Element :=
  { text := t, confidence := 90,
    position := { x := x, y := y, width := 10, height := 10, left := x - 5, top := y - 5 } }

/-- A page with two label elements matching the field nome, each with a
qualifying same-row value: the first label pairs with Alice, the second with
Bob. -/
def twoNomePage : List Element :=
  [sampleEl "Nome" 10 10, sampleEl "Alice" 60 12, sampleEl "Nome" 10 50, sampleEl "Bob" 60 52]

/-- A page whose three elements all share the vertical center 10. -/
def tiePageA : List Element :=
  [sampleEl "Nome" 10 10, sampleEl "aa" 60 10, sampleEl "bb" 70 10]

/-- The same three elements as `tiePageA` with the two candidates swapped. -/
def tiePageB : List Element :=
  [sampleEl "Nome" 10 10, sampleEl "bb" 70 10, sampleEl "aa" 60 10]

/-- A two-element page with distinct vertical centers. -/
def distinctYPageA : List Element := [sampleEl "Nome" 10 30, sampleEl "zz" 60 10]

/-- The reversal of `distinctYPageA`. -/
def distinctYPageB : List Element := [sampleEl "zz" 60 10, sampleEl "Nome" 10 30]

/-- A page with a label at center (10, 10), a qualifying below candidate at
(15, 60) and a qualifying same-row candidate at (60, 12). -/
def c5page : List Element :=
  [sampleEl "Nome" 10 10, sampleEl "below" 15 60, sampleEl "right" 60 12]

/-- A page where no element qualifies for the label at (10, 10): one element
is the label itself, one sits on the same row to the left, one is 190 pixels
further down. -/
def c9page : List Element :=
  [sampleEl "Nome" 10 10, sampleEl "xx" 5 10, sampleEl "yy" 10 200]

/-- Position of the label element shared by `c5page` and `c9page`. -/
def labelPos10 : Position := (sampleEl "Nome" 10 10).position

/-- An element whose text contains the token validade, which occurs in the
vocabularies of both the validade and the validade_cartao registry fields. -/
def c10el : Element := sampleEl "Validade 12/25" 10 10

/-! ### Helper lemmas -/

theorem someOr {α : Type} (a : α) (o : Option α) : (some a).or o = some a := rfl

theorem dictGet?_dictSet_self {β : Type} (m : List (String × β)) (k : String) (v : β) :
    dictGet? (dictSet m k v) k = some v := by
  induction m with
  | nil => simp [dictSet, dictGet?]
  | cons kv rest ih =>
    obtain ⟨k', v'⟩ := kv
    by_cases h : k' = k
    · simp [dictSet, dictGet?, h]
    · simp [dictSet, dictGet?, h, ih]

theorem dictGet?_dictSet_ne {β : Type} (m : List (String × β)) (k g : String) (v : β)
    (h : g ≠ k) : dictGet? (dictSet m g v) k = dictGet? m k := by
  induction m with
  | nil => simp [dictSet, dictGet?, h]
  | cons kv rest ih =>
    obtain ⟨k', v'⟩ := kv
    by_cases h2 : k' = g
    · subst h2; simp [dictSet, dictGet?, h]
    · simp [dictSet, dictGet?, h2, ih]

theorem getLast?_cons_or {α : Type} (a : α) (l : List α) :
    (a :: l).getLast? = l.getLast?.or (some a) := by
  cases l with
  | nil => rfl
  | cons b t =>
    rw [List.getLast?_cons_cons]
    have h : (b :: t).getLast?.isSome := List.getLast?_isSome.mpr (by simp)
    obtain ⟨c, hc⟩ := Option.isSome_iff_exists.mp h
    rw [hc]; rfl

theorem dictGet?_identifyAux (f : String) (sorted : List Element) :
    ∀ (suffix : List Element) (i : Nat) (fields : List (String × FieldEntry)),
      dictGet? (identifyAux sorted suffix i fields) f =
        ((resAux f sorted suffix i).getLast?).or (dictGet? fields f) := by
  intro suffix
  induction suffix with
  | nil => intro i fields; simp [identifyAux, resAux]
  | cons e rest ih =>
    intro i fields
    simp only [identifyAux, resAux]
    cases hm : matchedField e with
    | none =>
      simp only [hm]
      rw [ih]
      simp
    | some g =>
      cases hf : find_field_value sorted i e.position 100 with
      | none =>
        simp only [hm, hf]
        rw [ih]
        simp
      | some v =>
        by_cases hg : g = f
        · subst hg
          simp only [hm, hf]
          rw [ih, dictGet?_dictSet_self]
          simp [getLast?_cons_or, Option.or_assoc, someOr]
        · simp only [hm, hf, if_neg hg]
          rw [ih, dictGet?_dictSet_ne _ _ _ _ hg]
          simp

theorem sorted_strict_of_nodup (l : List Element)
    (hs : l.Sorted leY) (hn : (l.map (fun e => e.position.y)).Nodup) :
    l.Sorted (fun a b => a.position.y < b.position.y) := by
  have hne : l.Pairwise (fun a b => a.position.y ≠ b.position.y) := List.pairwise_map.mp hn
  exact (hs.and hne).imp (fun h => lt_of_le_of_ne h.1 h.2)

theorem sortedByY_eq_of_perm (l1 l2 : List Element) (hp : l1.Perm l2)
    (hn : (l1.map (fun e => e.position.y)).Nodup) :
    sortedByY l1 = sortedByY l2 := by
  haveI ht : IsTotal Element leY := ⟨fun a b => Int.le_total _ _⟩
  haveI htr : IsTrans Element leY := ⟨fun a b c h1 h2 => le_trans h1 h2⟩
  have p1 : (sortedByY l1).Perm l1 := List.perm_insertionSort leY l1
  have p2 : (sortedByY l2).Perm l2 := List.perm_insertionSort leY l2
  have s1 : (sortedByY l1).Sorted leY := List.sorted_insertionSort leY l1
  have s2 : (sortedByY l2).Sorted leY := List.sorted_insertionSort leY l2
  have hp12 : (sortedByY l1).Perm (sortedByY l2) := p1.trans (hp.trans p2.symm)
  have hn1 : ((sortedByY l1).map (fun e => e.position.y)).Nodup :=
    ((p1.map _).nodup_iff).mpr hn
  have hn2 : ((sortedByY l2).map (fun e => e.position.y)).Nodup :=
    ((p2.map _).nodup_iff).mpr ((hp.map _).nodup_iff.mp hn)
  haveI : IsAntisymm Element (fun a b => a.position.y < b.position.y) :=
    ⟨fun a b h1 h2 => absurd h2 (lt_asymm h1)⟩
  exact List.eq_of_perm_of_sorted hp12 (sorted_strict_of_nodup _ s1 hn1)
    (sorted_strict_of_nodup _ s2 hn2)

theorem collectTexts_characterization (pages : List PageOut) :
    collectTexts pages = if PageOut.exn ∈ pages then none else some (pageTexts pages) := by
  induction pages with
  | nil => simp [collectTexts, pageTexts]
  | cons p rest ih =>
    cases p with
    | exn => simp [collectTexts]
    | txt s =>
      by_cases hm : PageOut.exn ∈ rest
      · simp [collectTexts, ih, hm, List.mem_cons]
      · by_cases hs : s = ""
        · simp [collectTexts, ih, hm, hs, pageTexts, List.mem_cons]
        · simp [collectTexts, ih, hm, hs, pageTexts, List.mem_cons]

theorem foldl_combineStep_of_no_fields :
    ∀ (pages : List (List (String × PyVal))) (acc : List (String × String)),
      (∀ p ∈ pages, dictGet? p "fields" = none) →
      pages.foldl combineStep acc = acc := by
  intro pages
  induction pages with
  | nil => intro acc _; rfl
  | cons p rest ih =>
    intro acc h
    have hp := h p (by simp)
    have hstep : combineStep acc p = acc := by
      unfold combineStep
      rw [hp]
      rfl
    rw [List.foldl_cons, hstep]
    exact ih acc (fun q hq => h q (by simp [hq]))

theorem process_pdf_with_position_no_fields_key :
    ∀ (prs : List (Option (List (String × String)))) (p : List (String × PyVal)),
      p ∈ process_pdf_with_position prs → dictGet? p "fields" = none := by
  intro prs p hp
  unfold process_pdf_with_position at hp
  obtain ⟨pr, _hpr, hsome⟩ := List.mem_filterMap.mp hp
  cases hr : pr.2 with
  | none => rw [hr] at hsome; simp at hsome
  | some m =>
    rw [hr] at hsome
    by_cases hm : m.isEmpty
    · simp [hm] at hsome
    · simp only [hm, if_neg, Bool.false_eq_true, if_false] at hsome
      obtain rfl := Option.some.inj hsome
      rw [dictGet?, if_neg (by decide : ¬ ("page" : String) = "fields"),
        dictGet?, if_neg (by decide : ¬ ("elements" : String) = "fields"), dictGet?]

theorem process_document_with_position_pdf_empty_or_none :
    ∀ (prs : List (Option (List (String × String)))),
      process_document_with_position_pdf prs = none ∨
      process_document_with_position_pdf prs = some [] := by
  intro prs
  unfold process_document_with_position_pdf
  by_cases h : (process_pdf_with_position prs).isEmpty
  · left; simp [h]
  · right
    simp only [h, Bool.false_eq_true, if_false]
    unfold combine_fields
    rw [foldl_combineStep_of_no_fields _ [] (process_pdf_with_position_no_fields_key prs)]

theorem find?_append_first {α : Type} (p : α → Bool) :
    ∀ (l1 : List α) (a : α) (l2 : List α), (∀ x ∈ l1, p x = false) → p a = true →
      (l1 ++ a :: l2).find? p = some a := by
  intro l1
  induction l1 with
  | nil => intro a l2 _ hpa; simp [List.find?_cons_of_pos _ hpa]
  | cons b t ih =>
    intro a l2 h hpa
    have hb : p b = false := h b (by simp)
    rw [List.cons_append, List.find?_cons_of_neg _ (by simp [hb])]
    exact ih a l2 (fun x hx => h x (by simp [hx])) hpa

/-! ### Claims -/

/-- C1, counterexample. On `twoNomePage` the earliest matching label does
find the value Alice (third conjunct), yet the entry stored for nome carries
the value Bob, paired with the later label: later elements matching the same
field are not ignored, so the entry stored is not the one paired with the
earliest matching label. -/
theorem identify_fields_second_label_overwrites :
    (dictGet? (identify_fields twoNomePage) "nome").map (fun en => en.value) = some "Bob" ∧
    (dictGet? (identify_fields twoNomePage) "nome").map (fun en => en.value) ≠ some "Alice" ∧
    (find_field_value (sortedByY twoNomePage) 0 (sampleEl "Nome" 10 10).position 100).map
      (fun e => e.text) = some "Alice" := by
  refine ⟨by decide, by decide, by decide⟩

/-- C1, amended. Each field name holds at most one entry per page (the result
is a dict), but a later matching label that finds a value overwrites the
earlier entry: the entry stored for a field name is the resolution produced
by the last matching label, in sorted order, that found a value. -/
theorem identify_fields_last_resolution_wins (elements : List Element) (f : String) :
    dictGet? (identify_fields elements) f = (resolutionsFor f elements).getLast? := by
  unfold identify_fields resolutionsFor
  rw [dictGet?_identifyAux]
  simp [dictGet?]

/-- C2, counterexample. For the two-page document whose first page raises and
whose second page yields the text hello, the code returns the document-level
failure, not the aggregated text hello: there is no per-page recovery. -/
theorem extract_text_pdf_page_exception_aborts :
    extract_text_from_pdf_by_image [PageOut.exn, PageOut.txt "hello"] = none ∧
    extract_text_from_pdf_by_image [PageOut.exn, PageOut.txt "hello"] ≠ some "hello" := by
  refine ⟨by decide, by decide⟩

/-- C2, amended. A page that yields empty text contributes nothing and
processing continues; but an exception while rasterizing, preprocessing or
OCR-ing any page aborts the whole document with a document-level failure;
with no exception, the document fails exactly when every page yields empty
text, and otherwise the result joins the stripped non-empty page texts with
newlines. -/
theorem extract_text_pdf_characterization (pages : List PageOut) :
    extract_text_from_pdf_by_image pages =
      if PageOut.exn ∈ pages ∨ pageTexts pages = [] then none
      else some (String.intercalate "\n" (pageTexts pages)) := by
  unfold extract_text_from_pdf_by_image
  rw [collectTexts_characterization]
  by_cases hm : PageOut.exn ∈ pages
  · simp [hm]
  · by_cases he : pageTexts pages = []
    · simp [hm, he]
    · simp [hm, he, List.isEmpty_iff]

/-- C3, code bug. The per-page dicts are stored under the key elements
(line 286) but the merge reads the key fields (line 255), so the combined
result of the PDF field mode is always the empty map: a page that resolved
the cpf field still contributes nothing (first two conjuncts), and in
general the function can only return nothing or the empty map (third
conjunct), contradicting the merge the comment at line 252 announces. -/
theorem process_document_with_position_pdf_drops_all_fields :
    process_document_with_position_pdf [some [("cpf", "123.456.789-00")]] = some [] ∧
    some ([] : List (String × String)) ≠ some [("cpf", "123.456.789-00")] ∧
    ∀ (prs : List (Option (List (String × String)))),
      process_document_with_position_pdf prs = none ∨
      process_document_with_position_pdf prs = some [] := by
  refine ⟨by decide, by decide, process_document_with_position_pdf_empty_or_none⟩

/-- C4, counterexample. `tiePageB` is a permutation of `tiePageA`, whose
elements all share one vertical center, yet the outputs differ: the sort is
stable, so permuting tied elements changes the sorted order and with it the
value paired with the label. -/
theorem identify_fields_tie_perm_cex :
    tiePageA.Perm tiePageB ∧ identify_fields tiePageA ≠ identify_fields tiePageB := by
  refine ⟨by decide, by decide⟩

/-- C4, amended. The Field Identifier is stable under input reordering
whenever the vertical centers are pairwise distinct: permuting such a
sequence before the sort step leaves the output unchanged, because the
sorted sequence is then unique. With ties the stable sort preserves the
permuted order and the guarantee fails. -/
theorem identify_fields_perm_invariant (l1 l2 : List Element) (hp : l1.Perm l2)
    (hn : (l1.map (fun e => e.position.y)).Nodup) :
    identify_fields l1 = identify_fields l2 := by
  have h := sortedByY_eq_of_perm l1 l2 hp hn
  unfold identify_fields
  rw [h]

/-- C4, witness: the theorem applied to a concrete two-element page with
distinct vertical centers and its reversal. -/
theorem identify_fields_perm_invariant_witness :
    identify_fields distinctYPageA = identify_fields distinctYPageB :=
  identify_fields_perm_invariant distinctYPageA distinctYPageB (by decide) (by decide)

/-- C5, confirmed. When the remaining elements contain both a qualifying
same-row candidate and a qualifying below candidate, `find_field_value`
returns the result of the same-row search (its first qualifying element):
the below search runs only if the same-row search found nothing. -/
theorem find_field_value_same_row_precedence (elements : List Element) (i : Nat)
    (pos : Position) (maxd : Int)
    (hsame : ∃ e ∈ elements.drop i, sameRowB pos e = true)
    (_hbelow : ∃ e ∈ elements.drop i, belowB pos maxd e = true) :
    find_field_value elements i pos maxd =
      (elements.drop i).find? (fun e => sameRowB pos e) := by
  have h1 : ((elements.drop i).find? (fun e => sameRowB pos e)).isSome :=
    List.find?_isSome.mpr (by simpa using hsame)
  obtain ⟨v, hv⟩ := Option.isSome_iff_exists.mp h1
  unfold find_field_value
  simp [hv]

/-- C5, witness: on `c5page` the label has the below candidate at (15, 60)
and the same-row candidate at (60, 12); the result equals the same-row
search result. -/
theorem find_field_value_same_row_precedence_witness :
    find_field_value c5page 0 labelPos10 100 =
      (c5page.drop 0).find? (fun e => sameRowB labelPos10 e) :=
  find_field_value_same_row_precedence c5page 0 labelPos10 100 (by decide) (by decide)

/-- C6, counterexample. A token whose reported confidence is -2 passes the
filter, which only tests equality with -1, so the output can contain an
element with negative confidence: not every negative confidence is dropped. -/
theorem buildElements_keeps_negative_conf :
    ∃ e ∈ buildElements [⟨"x", -2, 0, 0, 4, 4⟩], e.confidence < 0 := by decide

/-- C6, amended. The builder drops exactly the tokens with confidence -1 or
whitespace-only text; hence whenever the engine reports confidences that are
at least -1 (the documented engine range), every returned element has
confidence at least 0 and non-empty stripped text. -/
theorem buildElements_conf_nonneg (tokens : List RawToken)
    (h : ∀ t ∈ tokens, -1 ≤ t.conf) :
    ∀ e ∈ buildElements tokens, 0 ≤ e.confidence ∧ pyStrip e.text ≠ "" := by
  intro e he
  rw [buildElements] at he
  obtain ⟨t, ht, hsome⟩ := List.mem_filterMap.mp he
  by_cases hc : t.conf = -1 ∨ pyStrip t.text = ""
  · simp [hc] at hsome
  · rw [if_neg hc] at hsome
    obtain rfl := Option.some.inj hsome
    push_neg at hc
    refine ⟨?_, hc.2⟩
    have h1 := h t ht
    have h2 := hc.1
    simp only []
    omega

/-- C6, witness: the theorem applied to a one-token input of confidence 90,
instantiated at the element it builds. -/
theorem buildElements_conf_nonneg_witness :
    0 ≤ (Element.mk "ok" 90 (Position.mk 1 1 2 2 0 0)).confidence ∧
    pyStrip (Element.mk "ok" 90 (Position.mk 1 1 2 2 0 0)).text ≠ "" :=
  buildElements_conf_nonneg [⟨"ok", 90, 0, 0, 2, 2⟩] (by decide)
    (Element.mk "ok" 90 (Position.mk 1 1 2 2 0 0)) (by decide)

/-- C7, counterexample. For the token with left 0 and width 3 the stored
horizontal center is 1, which differs from the exact value three halves:
the center arithmetic truncates. -/
theorem buildElements_center_not_exact :
    ∃ e ∈ buildElements [⟨"x", 50, 0, 0, 3, 3⟩],
      ((e.position.x : ℚ) ≠ (e.position.left : ℚ) + (e.position.width : ℚ) / 2) := by
  refine ⟨{ text := "x", confidence := 50,
            position := { x := 1, y := 1, width := 3, height := 3, left := 0, top := 0 } },
          by decide, by norm_num⟩

/-- C7, amended. Every built element has center left plus width floor-divided
by two, and top plus height floor-divided by two: the halving is the Python
integer floor division, exact only for even widths and heights. -/
theorem buildElements_center_floor (tokens : List RawToken) :
    ∀ e ∈ buildElements tokens,
      e.position.x = e.position.left + Int.fdiv e.position.width 2 ∧
      e.position.y = e.position.top + Int.fdiv e.position.height 2 := by
  intro e he
  rw [buildElements] at he
  obtain ⟨t, _ht, hsome⟩ := List.mem_filterMap.mp he
  by_cases hc : t.conf = -1 ∨ pyStrip t.text = ""
  · simp [hc] at hsome
  · rw [if_neg hc] at hsome
    obtain rfl := Option.some.inj hsome
    exact ⟨rfl, rfl⟩

/-- C7, witness: the theorem applied to the width-3 token, instantiated at
the element it builds. -/
theorem buildElements_center_floor_witness :
    (Element.mk "x" 50 (Position.mk 1 1 3 3 0 0)).position.x =
      (Element.mk "x" 50 (Position.mk 1 1 3 3 0 0)).position.left +
        Int.fdiv (Element.mk "x" 50 (Position.mk 1 1 3 3 0 0)).position.width 2 ∧
    (Element.mk "x" 50 (Position.mk 1 1 3 3 0 0)).position.y =
      (Element.mk "x" 50 (Position.mk 1 1 3 3 0 0)).position.top +
        Int.fdiv (Element.mk "x" 50 (Position.mk 1 1 3 3 0 0)).position.height 2 :=
  buildElements_center_floor [⟨"x", 50, 0, 0, 3, 3⟩]
    (Element.mk "x" 50 (Position.mk 1 1 3 3 0 0)) (by decide)

/-- C8, confirmed. With every stage toggle off, `preprocess_image` returns
its input unchanged, whatever the stage transforms, the threshold and the
kernel size are: it is the identity on images. -/
theorem preprocess_image_all_disabled {Img : Type}
    (grayscale : Img → Img) (binarize : Nat → Img → Img)
    (medianBlur : Nat → Img → Img) (denoise : Img → Img)
    (cfg : PreprocessConfig)
    (hg : cfg.use_grayscale = false) (hb : cfg.use_binarization = false)
    (hm : cfg.use_median_blur = false) (hd : cfg.use_denoising = false)
    (image : Img) :
    preprocess_image grayscale binarize medianBlur denoise cfg image = image := by
  unfold preprocess_image
  rw [hg, hb, hm, hd]
  simp

/-- C8, witness: the theorem applied to concrete non-identity stage
transforms on natural-number images and the all-disabled configuration. -/
theorem preprocess_image_all_disabled_witness :
    preprocess_image Nat.succ (fun _ n => n + 7) (fun _ n => n * 2) (fun n => n + 1)
      ⟨140, false, false, false, 3, false⟩ 5 = 5 :=
  preprocess_image_all_disabled _ _ _ _ _ rfl rfl rfl rfl 5

/-- C9, confirmed. First part: when no remaining element satisfies the
same-row rule nor the below rule, `find_field_value` returns nothing.
Second part: when the search for a label returns nothing, the loop step of
`identify_fields` leaves the fields dict unchanged, so the field is left
unresolved for the page and no error arises (the embedding is total). -/
theorem find_field_value_none_when_no_candidate :
    (∀ (elements : List Element) (i : Nat) (pos : Position) (maxd : Int),
        (∀ e ∈ elements.drop i, sameRowB pos e = false ∧ belowB pos maxd e = false) →
        find_field_value elements i pos maxd = none) ∧
    (∀ (sorted : List Element) (e : Element) (rest : List Element) (i : Nat)
        (fields : List (String × FieldEntry)),
        find_field_value sorted i e.position 100 = none →
        identifyAux sorted (e :: rest) i fields = identifyAux sorted rest (i + 1) fields) := by
  constructor
  · intro elements i pos maxd h
    have h1 : (elements.drop i).find? (fun e => sameRowB pos e) = none :=
      List.find?_eq_none.mpr (fun x hx => by simp [(h x hx).1])
    have h2 : (elements.drop i).find? (fun e => belowB pos maxd e) = none :=
      List.find?_eq_none.mpr (fun x hx => by simp [(h x hx).2])
    unfold find_field_value
    simp [h1, h2]
  · intro sorted e rest i fields h
    simp only [identifyAux]
    cases hm : matchedField e with
    | none => simp
    | some g => simp [h]

/-- C9, witness: both parts applied to `c9page`, whose elements are the label
itself, a same-row element to the left, and an element 190 pixels down. -/
theorem find_field_value_none_witness :
    find_field_value c9page 0 labelPos10 100 = none ∧
    identifyAux c9page [sampleEl "Nome" 10 10] 0 [] = identifyAux c9page [] 1 [] :=
  ⟨find_field_value_none_when_no_candidate.1 c9page 0 labelPos10 100 (by decide),
   find_field_value_none_when_no_candidate.2 c9page (sampleEl "Nome" 10 10) [] 0 []
     (by decide)⟩

/-- C10, confirmed. The label scan stops at the first matching field of the
registry: whenever the registry splits as a block of non-matching fields
followed by a matching field, `matchedField` returns that field, so the
element is never considered as a label for any later field, even one whose
vocabulary also matches. -/
theorem matchedField_first_registry_wins (e : Element)
    (pre : List (String × List String)) (f : String) (pats : List String)
    (post : List (String × List String))
    (hsplit : field_patterns = pre ++ (f, pats) :: post)
    (hpre : ∀ fp ∈ pre, fp.2.any (fun p => pyContains (pyStrip (pyLower e.text)) p) = false)
    (hmatch : pats.any (fun p => pyContains (pyStrip (pyLower e.text)) p) = true) :
    matchedField e = some f := by
  have hfind : field_patterns.find?
      (fun fp => fp.2.any (fun p => pyContains (pyStrip (pyLower e.text)) p)) =
      some (f, pats) := by
    rw [hsplit]
    exact find?_append_first _ pre (f, pats) post hpre hmatch
  simp only [matchedField]
  rw [hfind]
  rfl

/-- C10, witness: a text containing validade labels the field validade and
never the later field validade_cartao, although the vocabulary of
validade_cartao also contains validade. -/
theorem matchedField_first_registry_wins_witness :
    matchedField c10el = some "validade" ∧ matchedField c10el ≠ some "validade_cartao" :=
  ⟨matchedField_first_registry_wins c10el
    [("nome", ["nome", "name"]),
     ("cpf", ["cpf", "cadastro de pessoa"]),
     ("rg", ["rg", "registro geral", "identidade"]),
     ("data_nascimento", ["nascimento", "data de nascimento", "birth", "nasc"]),
     ("filiacao", ["filiacao", "filho", "pai", "mae", "father", "mother"]),
     ("endereco", ["endereco", "address", "residencia"])]
    "validade" ["validade", "valid", "expira"]
    [("numero_cartao", ["cartão", "card number", "número do cartão"]),
     ("validade_cartao", ["valid thru", "validade"]),
     ("titular", ["titular", "holder"])]
    (by decide) (by decide) (by decide),
   by decide⟩
